import Mathlib

/-!
Verification of the steel-decarbonization repository's calibration-then-equilibrium
pipeline: a shallow embedding of the two example models (steel industry, two-region
trade) and of the scenario-runner logic, over exact rationals in place of the
source's floating-point numbers.

Sources embedded: src/gamspy/trade.py, src/python/trade_pyomo.py,
src/gamspy/simple_steel.py, src/python/simple_steel_pyomo.py,
src/gamspy/simple_steel_data.py.
-/

namespace Trade

/-- The region set `r` with records ['A', 'B'] (trade.py lines 7-8). -/
inductive Region where
  | A
  | B
deriving DecidableEq, Repr

open Region

/-- The ordered record list of set `r`. -/
def regions : List Region := [A, B]

/-- Benchmark trade quantity ref_YM (kt), rows (from, to, quantity):
(A,A,800), (A,B,200), (B,A,400), (B,B,1800) (trade.py lines 12-28). -/
def ref_YM : Region → Region → ℚ
  | A, A => 800
  | A, B => 200
  | B, A => 400
  | B, B => 1800

/-- Transport cost tcost (USD), rows (from, to, costs):
(A,A,100), (A,B,60), (B,A,90), (B,B,0) (trade.py lines 30-46). -/
def tcost : Region → Region → ℚ
  | A, A => 100
  | A, B => 60
  | B, A => 90
  | B, B => 0

/-- Demand elasticity epsilon = -1 (trade.py line 48). -/
def epsilon : ℚ := -1

/-- Benchmark producer price ref_P: A ↦ 190, B ↦ 220 (trade.py lines 80-86). -/
def ref_P : Region → ℚ
  | A => 190
  | B => 220

/-- Sum over the region set, the embedding of gp.Sum(rr, ...). -/
def sumR (g : Region → ℚ) : ℚ := (regions.map g).sum

/-- Benchmark import price: ref_PM[r,rr] = ref_P[r] + tcost[r,rr] (trade.py line 89). -/
def ref_PM (r rr : Region) : ℚ := ref_P r + tcost r rr

/-- Benchmark final demand: ref_YA[r] = Sum(rr, ref_YM[rr,r]) (trade.py line 92). -/
def ref_YA (r : Region) : ℚ := sumR (fun rr => ref_YM rr r)

/-- Benchmark final price: ref_PA[r] = Sum(rr, ref_YM[rr,r]*ref_PM[rr,r]) / ref_YA[r]
(trade.py line 95). -/
def ref_PA (r : Region) : ℚ := sumR (fun rr => ref_YM rr r * ref_PM rr r) / ref_YA r

/-- Benchmark total import cost: ref_CM[r] = Sum(rr, ref_YM[rr,r]*ref_PM[rr,r])
(trade.py line 98). -/
def ref_CM (r : Region) : ℚ := sumR (fun rr => ref_YM rr r * ref_PM rr r)

/-- Benchmark value share: sha_PM[rr,r] = (ref_YM[rr,r]*ref_PM[rr,r]) / ref_CM[r]
(trade.py line 101). -/
def sha_PM (rr r : Region) : ℚ := ref_YM rr r * ref_PM rr r / ref_CM r

/-- Unit-cost index: C_PM(r) = Sum(rrr, sha_PM[rrr,r] * (PM[rrr,r] / ref_PM[rrr,r]))
(trade.py lines 104-105), as a function of the current import-price levels PM. -/
def C_PM (PM : Region → Region → ℚ) (r : Region) : ℚ :=
  sumR (fun rrr => sha_PM rrr r * (PM rrr r / ref_PM rrr r))

/-- Residual (lhs minus rhs) of equation zpf_YM[r,rr]:
YM[r,rr] >= ref_YM[r,rr] * (1 + epsilon * (C_PM(rr) - 1)) (trade.py lines 115-121). -/
def zpf_YM_resid (YM PM : Region → Region → ℚ) (r rr : Region) : ℚ :=
  YM r rr - ref_YM r rr * (1 + epsilon * (C_PM PM rr - 1))

/-- Residual (lhs minus rhs) of equation mkt_PM[r,rr]:
ref_P[r] + tcost[r,rr] >= PM[r,rr] (trade.py lines 122-128). -/
def mkt_PM_resid (PM : Region → Region → ℚ) (r rr : Region) : ℚ :=
  (ref_P r + tcost r rr) - PM r rr

/-- Residual (lhs minus rhs) of equation zpf_YA[r]:
YA[r] >= ref_YA[r] * (1 + epsilon * (PA[r] / ref_PA[r] - 1)) (trade.py lines 129-135). -/
def zpf_YA_resid (YA PA : Region → ℚ) (r : Region) : ℚ :=
  YA r - ref_YA r * (1 + epsilon * (PA r / ref_PA r - 1))

/-- Residual (lhs minus rhs) of equation mkt_PA[r]:
ref_PA[r] * C_PM(r) >= PA[r] (trade.py lines 136-142). -/
def mkt_PA_resid (PM : Region → Region → ℚ) (PA : Region → ℚ) (r : Region) : ℚ :=
  ref_PA r * C_PM PM r - PA r

/-- A complementarity pair at one index tuple is satisfied when the equation's slack
(residual) is nonnegative, the matched variable's level is at (or above) its lower
bound 0, and the two are complementary (product zero). -/
def compPair (resid level : ℚ) : Prop := 0 ≤ resid ∧ 0 ≤ level ∧ resid * level = 0

instance (resid level : ℚ) : Decidable (compPair resid level) := by
  unfold compPair
  infer_instance

/-- Division with the source's failure semantics: dividing by a parameter value of 0
is a DivisionByZeroError (in trade_pyomo.py these are plain Python float divisions,
which raise ZeroDivisionError), never silently coerced to a number. -/
def safeDiv (a b : ℚ) : Except String ℚ :=
  if b = 0 then Except.error "DivisionByZeroError" else Except.ok (a / b)

/-- ref_YA as a function of an arbitrary benchmark flow table
(trade_pyomo.py lines 67-71: ref_YA[r] = sum(ref_YM[(rr, r)] for rr in regions)). -/
def ref_YA_of (YM : Region → Region → ℚ) (r : Region) : ℚ :=
  sumR (fun rr => YM rr r)

/-- ref_CM as a function of arbitrary benchmark flows and import prices
(trade_pyomo.py lines 73-77: ref_CM[r] = sum(ref_YM[(rr,r)] * ref_PM[(rr,r)])). -/
def ref_CM_of (YM PM : Region → Region → ℚ) (r : Region) : ℚ :=
  sumR (fun rr => YM rr r * PM rr r)

/-- ref_PA with the division made explicit
(trade_pyomo.py lines 79-82: ref_PA[r] = ref_CM[r] / ref_YA[r]). -/
def ref_PA_of (YM PM : Region → Region → ℚ) (r : Region) : Except String ℚ :=
  safeDiv (ref_CM_of YM PM r) (ref_YA_of YM r)

/-- sha_PM with the division made explicit
(trade_pyomo.py lines 84-88: sha_PM[(rr,r)] = (ref_YM[(rr,r)] * ref_PM[(rr,r)]) / ref_CM[r]). -/
def sha_PM_of (YM PM : Region → Region → ℚ) (rr r : Region) : Except String ℚ :=
  safeDiv (YM rr r * PM rr r) (ref_CM_of YM PM r)

/-- The mutable state the trade scenario runner touches between the two solves:
the tcost parameter and the benchmark parameters computed from it during
calibration (trade.py lines 89-101). -/
structure TradeState where
  tcostP : Region → Region → ℚ
  refPM : Region → Region → ℚ
  refYA : Region → ℚ
  refPA : Region → ℚ
  refCM : Region → ℚ
  shaPM : Region → Region → ℚ

/-- Point update of a two-dimensional parameter at one key. -/
def update2 (g : Region → Region → ℚ) (k : Region × Region) (v : ℚ) :
    Region → Region → ℚ :=
  fun a b => if (a, b) = k then v else g a b

/-- The trade model's parameter state after calibration, before the first solve. -/
def initialTradeState : TradeState :=
  { tcostP := tcost, refPM := ref_PM, refYA := ref_YA, refPA := ref_PA,
    refCM := ref_CM, shaPM := sha_PM }

/-- The scenario mutation between the two solves:
tcost["B","A"] = tcost["B","A"] * 2 (trade.py line 157). Only the tcost entry at
key (B, A) is written; no benchmark parameter is recomputed. -/
def mutateTcost (st : TradeState) : TradeState :=
  { st with tcostP := update2 st.tcostP (B, A) (st.tcostP B A * 2) }

end Trade

namespace Steel

/-- The plant set i, records i1..i15 (simple_steel_data.py lines 18-19). -/
def i_recs : List String :=
  ["i1", "i2", "i3", "i4", "i5", "i6", "i7", "i8", "i9", "i10",
   "i11", "i12", "i13", "i14", "i15"]

/-- The factor set f (simple_steel_data.py lines 21-22). -/
def f_recs : List String := ["iore", "coal", "scrp", "elec", "ngas"]

/-- The technology set t (simple_steel_data.py lines 24-25). -/
def t_recs : List String := ["bof", "eaf", "dri"]

/-- The plant-technology relation it: plants i1-i5 use bof, i6-i10 use eaf,
i11-i15 use dri (simple_steel_data.py lines 28-45). -/
def it_recs : List (String × String) :=
  [("i1", "bof"), ("i2", "bof"), ("i3", "bof"), ("i4", "bof"), ("i5", "bof"),
   ("i6", "eaf"), ("i7", "eaf"), ("i8", "eaf"), ("i9", "eaf"), ("i10", "eaf"),
   ("i11", "dri"), ("i12", "dri"), ("i13", "dri"), ("i14", "dri"), ("i15", "dri")]

/-- The Pyomo lookup plant_tech = dict(zip(data['it']['i'], data['it']['t']))
(simple_steel_pyomo.py line 63). -/
def plant_tech (p : String) : String :=
  ((it_recs.find? (fun q => q.1 == p)).map Prod.snd).getD ""

/-- Membership test for the it relation, the embedding of the GAMSPy filter
it[i, t]. -/
def itMem (i t : String) : Bool := it_recs.contains (i, t)

/-- The filtered sum Sum(t.where[it[i, t]], g t) of the GAMSPy model
(simple_steel.py lines 56-58). -/
def filteredTechSum (i : String) (g : String → ℚ) : ℚ :=
  ((t_recs.filter (fun t => itMem i t)).map g).sum

/-- Per-plant unit cost coefficient as the GAMSPy objective builds it:
Sum(f, Sum(t.where[it[i,t]], abar[t,f]) * (vbar[f] + tau[i,f]))
(simple_steel.py lines 57-59). -/
def gams_cost_coeff (abar : String → String → ℚ) (vbar tauI : String → ℚ)
    (i : String) : ℚ :=
  ((f_recs.map (fun f => filteredTechSum i (fun t => abar t f) * (vbar f + tauI f))).sum)

/-- Per-plant unit cost coefficient as the Pyomo objective builds it, via the
plant_tech dictionary lookup (simple_steel_pyomo.py lines 78-86). -/
def pyomo_cost_coeff (abar : String → String → ℚ) (vbar tauI : String → ℚ)
    (i : String) : ℚ :=
  ((f_recs.map (fun f => abar (plant_tech i) f * (vbar f + tauI f))).sum)

/-- Sparse parameter read, the embedding of abar_dict.get((t, f), 0.0) and
tau_dict.get((i, f), 0.0) (simple_steel_pyomo.py lines 66-67, 84): a key that was
never written reads as 0. -/
def dictGet {κ : Type} [BEq κ] (d : List (κ × ℚ)) (k : κ) : ℚ :=
  match d.find? (fun e => e.1 == k) with
  | some e => e.2
  | none => 0

/-- GAMSPy capacity-rent calibration: rbar[...] = -1 * Y.m (simple_steel.py line 75),
as a function of the raw per-plant dual reported by the LP solver. -/
def rbar_gamspy (dual : ℚ) : ℚ := -1 * dual

/-- Pyomo capacity-rent calibration: rbar[i] = abs(m.dual[m.Capacity[i]])
(simple_steel_pyomo.py line 124), as a function of the same raw dual. -/
def rbar_pyomo (dual : ℚ) : ℚ := |dual|

/-- The steps the steel scenario section performs that touch the chi parameter, the
carbon-price bounds, or run a solve (simple_steel.py lines 172-190). -/
inductive SteelStep where
  | setChi (q : ℚ)
  | fixW (q : ℚ)
  | relaxW
  | solveAndCollect (n : String)

/-- The scenario script of simple_steel.py lines 172-190: the Reference solve, then
chi = 0.8 and the relaxation of W for the cap scenario, then chi = 0 and W fixed to
10 for the tax scenario. -/
def steelScript : List SteelStep :=
  [SteelStep.solveAndCollect "Reference",
   SteelStep.setChi 0.8, SteelStep.relaxW, SteelStep.solveAndCollect "Cap (-20%)",
   SteelStep.setChi 0, SteelStep.fixW 10, SteelStep.solveAndCollect "Tax ($10/tCO2)"]

/-- The mutable state the steel scenario section drives: the chi parameter, the
carbon-price fixing, and the chi value observed at each solve. -/
structure SteelState where
  chi : ℚ
  wFixed : Option ℚ
  trace : List (String × ℚ)

/-- One step of the steel scenario script. A solve observes the current chi value. -/
def stepSteel (st : SteelState) : SteelStep → SteelState
  | SteelStep.setChi q => { st with chi := q }
  | SteelStep.fixW q => { st with wFixed := some q }
  | SteelStep.relaxW => { st with wFixed := none }
  | SteelStep.solveAndCollect n => { st with trace := st.trace ++ [(n, st.chi)] }

/-- Running the scenario script from the state after setup: chi = 0 (simple_steel.py
line 44) and W fixed to 0 (line 123). -/
def runSteelScript : SteelState := steelScript.foldl stepSteel ⟨0, some 0, []⟩

/-- The chi values the script ever writes, in order. -/
def steelChiWrites : List ℚ :=
  steelScript.filterMap (fun s =>
    match s with
    | SteelStep.setChi q => some q
    | _ => none)

/-- Number of plants in the generated data set (simple_steel_data.py line 89). -/
def nPlants : ℕ := 15

/-- Reference output by plant: ybar = ylim minus a draw from [0,5)
(simple_steel_data.py line 119: ybar_init_data = ylim_data - np.random.uniform(0, 5)). -/
def ybar_of (ylim draw : Fin nPlants → ℚ) (i : Fin nPlants) : ℚ := ylim i - draw i

/-- Reference aggregate demand: dbar = sum over plants of ybar
(simple_steel_data.py line 131). -/
def dbar_of (ylim draw : Fin nPlants → ℚ) : ℚ := ∑ i, ybar_of ylim draw i

end Steel

namespace MCPMatch

/-- A declared equation or variable: its name and its list of index sets
(empty for scalars). -/
structure Sym where
  name : String
  dom : List String
deriving DecidableEq, Repr

/-- Look up a declared symbol by name. -/
def lookupSym (syms : List Sym) (n : String) : Option Sym :=
  syms.find? (fun s => s.name == n)

/-- Modelled from the spec: the validation the GAMSPy Model constructor performs on the
matches dictionary is library code not present in the repository. Per the spec (§4.4)
it checks at model-build time that the (equation, variable) pairs exactly partition the
declared equations and variables of the model with identical index domains, and raises
ModelDefinitionError otherwise, before any solve call. -/
def buildMCP (eqs vs : List Sym) (ms : List (String × String)) : Except String Unit :=
  if (eqs.all fun e => (ms.filter (fun p => p.1 == e.name)).length == 1) &&
     (vs.all fun v => (ms.filter (fun p => p.2 == v.name)).length == 1) &&
     (ms.all fun p =>
        match lookupSym eqs p.1, lookupSym vs p.2 with
        | some e, some v => e.dom == v.dom
        | _, _ => false)
  then Except.ok () else Except.error "ModelDefinitionError"

/-- The equations of the steel MCP model with their declared domains
(simple_steel.py lines 89-93). -/
def steel_eqs : List Sym :=
  [⟨"zpf_y", ["i"]⟩, ⟨"mkt_y", []⟩, ⟨"mkt_f", ["f"]⟩, ⟨"capacity", ["i"]⟩,
   ⟨"mkt_co2", []⟩]

/-- The positive variables of the steel MCP model with their declared domains
(simple_steel.py lines 51, 82-87). -/
def steel_vs : List Sym :=
  [⟨"Y", ["i"]⟩, ⟨"P", []⟩, ⟨"V", ["f"]⟩, ⟨"R", ["i"]⟩, ⟨"W", []⟩]

/-- The match of the steel MCP model:
matches={zpf_y: Y, mkt_y: P, mkt_f: V, capacity: R, mkt_co2: W}
(simple_steel.py lines 125-130). -/
def steel_matches : List (String × String) :=
  [("zpf_y", "Y"), ("mkt_y", "P"), ("mkt_f", "V"), ("capacity", "R"),
   ("mkt_co2", "W")]

/-- The equations of the trade MCP model with their declared domains
(trade.py lines 115-142). -/
def trade_eqs : List Sym :=
  [⟨"zpf_YM", ["r", "rr"]⟩, ⟨"mkt_PM", ["r", "rr"]⟩, ⟨"zpf_YA", ["r"]⟩,
   ⟨"mkt_PA", ["r"]⟩]

/-- The positive variables of the trade MCP model with their declared domains
(trade.py lines 109-112). -/
def trade_vs : List Sym :=
  [⟨"YM", ["r", "rr"]⟩, ⟨"PM", ["r", "rr"]⟩, ⟨"PA", ["r"]⟩, ⟨"YA", ["r"]⟩]

/-- The match of the trade MCP model:
matches={zpf_YM: YM, mkt_PM: PM, zpf_YA: YA, mkt_PA: PA} (trade.py lines 143-147). -/
def trade_matches : List (String × String) :=
  [("zpf_YM", "YM"), ("mkt_PM", "PM"), ("zpf_YA", "YA"), ("mkt_PA", "PA")]

end MCPMatch

namespace Runner

/-- The solver status field of a solve result (pyo.SolverStatus). -/
inductive SolverStatus where
  | ok
  | warning
  | error
deriving DecidableEq, Repr

/-- The termination condition field of a solve result (pyo.TerminationCondition). -/
inductive TermCond where
  | optimal
  | infeasible
  | maxIterations
  | other
deriving DecidableEq, Repr

/-- What the MCP solver reports back for one scenario solve. -/
structure SolveReport where
  status : SolverStatus
  termination : TermCond
deriving DecidableEq, Repr

/-- solve_mcp (simple_steel_pyomo.py lines 216-230): returns False when the solver is
unavailable (no report), otherwise True exactly when the status is ok and the
termination condition is optimal. -/
def solve_mcp (report : Option SolveReport) : Bool :=
  match report with
  | none => false
  | some res =>
      res.status == SolverStatus.ok && res.termination == TermCond.optimal

/-- The scenario batch's accumulated state: appended result records, recorded
failures, and every scenario attempted, each holding scenario names in order. -/
structure BatchState where
  results : List String
  failures : List String
  attempted : List String
deriving DecidableEq, Repr

/-- One scenario of main (simple_steel_pyomo.py lines 263-282): build, solve, and
append a result record on success; on failure record the failure and fall through to
the next scenario. -/
def runScenario (st : BatchState) (name : String) (report : Option SolveReport) :
    BatchState :=
  if solve_mcp report then
    { st with results := st.results ++ [name], attempted := st.attempted ++ [name] }
  else
    { st with failures := st.failures ++ [name], attempted := st.attempted ++ [name] }

/-- The scenario batch of main: run every scenario in order against the outcome its
solve produces, starting from an empty result list. -/
def runBatch (scens : List (String × Option SolveReport)) : BatchState :=
  scens.foldl (fun st p => runScenario st p.1 p.2) ⟨[], [], []⟩

end Runner

open Trade in
/-- C1: with every variable of the trade model initialized to its calibrated benchmark
value (YM.l = ref_YM, PM.l = ref_PM, PA.l = ref_PA, YA.l = ref_YA), every equation
residual (lhs minus rhs) is exactly zero, hence within 1e-6 of zero, and every
(equation, matched variable) pair already satisfies its complementarity condition at
the initialization point, so a zero-iteration solve reproduces the benchmark with
every matched variable's level equal to its initialization value. -/
theorem trade_replication_check :
    (∀ r ∈ regions, ∀ rr ∈ regions,
      zpf_YM_resid ref_YM ref_PM r rr = 0 ∧
      |zpf_YM_resid ref_YM ref_PM r rr| ≤ 1 / 1000000 ∧
      mkt_PM_resid ref_PM r rr = 0 ∧
      |mkt_PM_resid ref_PM r rr| ≤ 1 / 1000000 ∧
      compPair (zpf_YM_resid ref_YM ref_PM r rr) (ref_YM r rr) ∧
      compPair (mkt_PM_resid ref_PM r rr) (ref_PM r rr)) ∧
    (∀ r ∈ regions,
      zpf_YA_resid ref_YA ref_PA r = 0 ∧
      |zpf_YA_resid ref_YA ref_PA r| ≤ 1 / 1000000 ∧
      mkt_PA_resid ref_PM ref_PA r = 0 ∧
      |mkt_PA_resid ref_PM ref_PA r| ≤ 1 / 1000000 ∧
      compPair (zpf_YA_resid ref_YA ref_PA r) (ref_YA r) ∧
      compPair (mkt_PA_resid ref_PM ref_PA r) (ref_PA r)) := by
  constructor
  · intro r hr rr hrr
    fin_cases hr <;> fin_cases hrr <;>
      norm_num [zpf_YM_resid, mkt_PM_resid, compPair, C_PM, sha_PM, ref_CM, ref_PA,
        ref_YA, ref_PM, sumR, regions, ref_YM, tcost, ref_P, epsilon]
  · intro r hr
    fin_cases hr <;>
      norm_num [zpf_YA_resid, mkt_PA_resid, compPair, C_PM, sha_PM, ref_CM, ref_PA,
        ref_YA, ref_PM, sumR, regions, ref_YM, tcost, ref_P, epsilon]

open Trade in
/-- C9: benchmark value shares are normalized: for every destination region r the
shares sha_PM[rr,r] sum to 1 over source regions rr, and consequently the unit-cost
index C_PM(r) evaluated at the benchmark import prices PM = ref_PM equals exactly 1. -/
theorem sha_PM_normalized :
    ∀ r ∈ regions, sumR (fun rr => sha_PM rr r) = 1 ∧ C_PM ref_PM r = 1 := by
  intro r hr
  fin_cases hr <;>
    norm_num [C_PM, sha_PM, ref_CM, ref_PA, ref_YA, ref_PM, sumR, regions, ref_YM,
      tcost, ref_P, epsilon]

open Trade in
/-- C8: under the precondition that every benchmark trade flow is non-negative with at
least one strictly positive inflow per region and every benchmark import price is
positive, the denominators ref_YA[r] and ref_CM[r] used to compute ref_PA and sha_PM
are strictly positive for every region, so the divisions succeed and the
DivisionByZeroError branch is unreachable. -/
theorem trade_calibration_divisions_defined (YM PM : Region → Region → ℚ)
    (hYM : ∀ a ∈ regions, ∀ b ∈ regions, 0 ≤ YM a b)
    (hpos : ∀ r ∈ regions, ∃ rr ∈ regions, 0 < YM rr r)
    (hPM : ∀ a ∈ regions, ∀ b ∈ regions, 0 < PM a b) :
    ∀ r ∈ regions,
      0 < ref_YA_of YM r ∧ 0 < ref_CM_of YM PM r ∧
      (∃ q, ref_PA_of YM PM r = Except.ok q) ∧
      (∀ rr ∈ regions, ∃ q, sha_PM_of YM PM rr r = Except.ok q) := by
  intro r hr
  have hA : Region.A ∈ regions := by simp [regions]
  have hB : Region.B ∈ regions := by simp [regions]
  have hYA : ref_YA_of YM r = YM Region.A r + YM Region.B r := by
    simp [ref_YA_of, sumR, regions]
  have hCM : ref_CM_of YM PM r
      = YM Region.A r * PM Region.A r + YM Region.B r * PM Region.B r := by
    simp [ref_CM_of, sumR, regions]
  obtain ⟨rr0, hrr0, hp0⟩ := hpos r hr
  have hcases : rr0 = Region.A ∨ rr0 = Region.B := by
    simpa [regions] using hrr0
  have hYAp : 0 < ref_YA_of YM r := by
    rw [hYA]
    have e1 := hYM Region.A hA r hr
    have e2 := hYM Region.B hB r hr
    rcases hcases with h | h <;> subst h <;> linarith
  have hCMp : 0 < ref_CM_of YM PM r := by
    rw [hCM]
    have e1 : 0 ≤ YM Region.A r * PM Region.A r :=
      mul_nonneg (hYM Region.A hA r hr) (le_of_lt (hPM Region.A hA r hr))
    have e2 : 0 ≤ YM Region.B r * PM Region.B r :=
      mul_nonneg (hYM Region.B hB r hr) (le_of_lt (hPM Region.B hB r hr))
    have e3 : 0 < YM rr0 r * PM rr0 r := mul_pos hp0 (hPM rr0 hrr0 r hr)
    rcases hcases with h | h <;> subst h <;> linarith
  have hPAok : ∃ q, ref_PA_of YM PM r = Except.ok q := by
    refine ⟨ref_CM_of YM PM r / ref_YA_of YM r, ?_⟩
    simp [ref_PA_of, safeDiv, ne_of_gt hYAp]
  have hSHAok : ∀ rr ∈ regions, ∃ q, sha_PM_of YM PM rr r = Except.ok q := by
    intro rr _
    refine ⟨YM rr r * PM rr r / ref_CM_of YM PM r, ?_⟩
    simp [sha_PM_of, safeDiv, ne_of_gt hCMp]
  exact ⟨hYAp, hCMp, hPAok, hSHAok⟩

open Trade in
/-- Witness for C8 at the concrete benchmark data of trade.py, region A. -/
theorem trade_calibration_divisions_defined_witness :
    0 < ref_YA_of ref_YM Region.A ∧ 0 < ref_CM_of ref_YM ref_PM Region.A :=
  have happ := trade_calibration_divisions_defined ref_YM ref_PM
    (by intro a ha b hb; fin_cases ha <;> fin_cases hb <;> norm_num [ref_YM])
    (by
      intro r hr
      fin_cases hr
      · exact ⟨Region.A, by simp [regions], by norm_num [ref_YM]⟩
      · exact ⟨Region.A, by simp [regions], by norm_num [ref_YM]⟩)
    (by
      intro a ha b hb
      fin_cases ha <;> fin_cases hb <;> norm_num [ref_PM, ref_P, tcost])
    Region.A (by simp [regions])
  ⟨happ.1, happ.2.1⟩

/-- C4: reading a Parameter at a domain tuple that was never written returns exactly
0, rather than failing, so filtered sums over the plant-technology relation receive
zero contributions from absent combinations. -/
theorem sparse_default_read {κ : Type} [BEq κ] [LawfulBEq κ]
    (d : List (κ × ℚ)) (k : κ) (h : k ∉ d.map Prod.fst) :
    Steel.dictGet d k = 0 := by
  unfold Steel.dictGet
  have hnone : d.find? (fun e => e.1 == k) = none := by
    rw [List.find?_eq_none]
    intro e he hek
    exact h (List.mem_map.mpr ⟨e, he, by simpa using hek⟩)
  rw [hnone]

/-- Witness for C4: a technology-factor key absent from a concrete abar-style table
reads as 0. -/
theorem sparse_default_read_witness :
    Steel.dictGet [(("bof", "iore"), (7 : ℚ))] ("eaf", "coal") = 0 :=
  sparse_default_read [(("bof", "iore"), (7 : ℚ))] ("eaf", "coal") (by decide)

/-- For every plant of the generated data set, filtering the technology set by the
it relation leaves exactly the plant's unique technology. -/
theorem steel_filter_singleton :
    ∀ i ∈ Steel.i_recs,
      Steel.t_recs.filter (fun t => Steel.itMem i t) = [Steel.plant_tech i] := by
  decide

/-- C5: for the plant-technology relation it, which maps each plant to exactly one
technology, the filtered sum Sum(t.where[it[i,t]], g t) equals the direct lookup
g (plant_tech i); consequently the GAMSPy cost expression (filtered sum) and the
Pyomo cost expression (plant_tech dictionary lookup) compute the same per-plant
coefficient for any coefficient tables. -/
theorem filtered_sum_eq_direct_lookup (i : String) (hi : i ∈ Steel.i_recs)
    (abar : String → String → ℚ) (vbar tauI : String → ℚ) (g : String → ℚ) :
    Steel.filteredTechSum i g = g (Steel.plant_tech i) ∧
    Steel.gams_cost_coeff abar vbar tauI i = Steel.pyomo_cost_coeff abar vbar tauI i := by
  have hfil := steel_filter_singleton i hi
  constructor
  · simp [Steel.filteredTechSum, hfil]
  · simp [Steel.gams_cost_coeff, Steel.pyomo_cost_coeff, Steel.filteredTechSum, hfil]

/-- Witness for C5 at plant i7 (an eaf plant) with concrete coefficient tables. -/
theorem filtered_sum_eq_direct_lookup_witness :
    Steel.filteredTechSum "i7" (fun _ => (2 : ℚ)) = (2 : ℚ) ∧
    Steel.gams_cost_coeff (fun _ _ => 1) (fun _ => 1) (fun _ => 0) "i7"
      = Steel.pyomo_cost_coeff (fun _ _ => 1) (fun _ => 1) (fun _ => 0) "i7" :=
  filtered_sum_eq_direct_lookup "i7" (by decide)
    (fun _ _ => 1) (fun _ => 1) (fun _ => 0) (fun _ => 2)

/-- C2: the reference capacity rent equals the negation of the raw non-positive
capacity dual: for every plant, given a non-positive raw dual, the GAMSPy computation
rbar = -1 * Y.m and the Pyomo computation rbar[i] = abs(dual) agree and the result is
non-negative. -/
theorem rbar_negated_dual (Ym : String → ℚ)
    (h : ∀ i ∈ Steel.i_recs, Ym i ≤ 0) :
    ∀ i ∈ Steel.i_recs,
      Steel.rbar_gamspy (Ym i) = Steel.rbar_pyomo (Ym i) ∧
      0 ≤ Steel.rbar_gamspy (Ym i) := by
  intro i hi
  have hle := h i hi
  constructor
  · simp [Steel.rbar_gamspy, Steel.rbar_pyomo, abs_of_nonpos hle]
  · simp only [Steel.rbar_gamspy]
    linarith

/-- Witness for C2 with the raw dual -2 at plant i3. -/
theorem rbar_negated_dual_witness :
    Steel.rbar_gamspy (-2 : ℚ) = Steel.rbar_pyomo (-2 : ℚ) ∧
    0 ≤ Steel.rbar_gamspy (-2 : ℚ) :=
  rbar_negated_dual (fun _ => (-2 : ℚ)) (fun _ _ => by norm_num) "i3" (by decide)

/-- C3: in both MCP models the match is a total bijection pairing each equation with
exactly one positive variable of identical index domain (steel: zpf_y with Y over
plants, mkt_y with P scalar, mkt_f with V over factors, capacity with R over plants,
mkt_co2 with W scalar), so model build succeeds; and for any model with an equation
or variable left unmatched, model build raises ModelDefinitionError before any
solve call. -/
theorem mcp_matching_total_bijection :
    MCPMatch.buildMCP MCPMatch.steel_eqs MCPMatch.steel_vs MCPMatch.steel_matches
      = Except.ok () ∧
    MCPMatch.buildMCP MCPMatch.trade_eqs MCPMatch.trade_vs MCPMatch.trade_matches
      = Except.ok () ∧
    (∀ eqs vs ms,
      ((∃ e ∈ eqs, ∀ p ∈ ms, p.1 ≠ e.name) ∨ (∃ v ∈ vs, ∀ p ∈ ms, p.2 ≠ v.name)) →
      MCPMatch.buildMCP eqs vs ms = Except.error "ModelDefinitionError") := by
  refine ⟨by rfl, by rfl, ?_⟩
  intro eqs vs ms h
  unfold MCPMatch.buildMCP
  rcases h with ⟨e, he, hun⟩ | ⟨v, hv, hun⟩
  · have hA : (eqs.all fun e => (ms.filter (fun p => p.1 == e.name)).length == 1)
        = false := by
      rw [List.all_eq_false]
      refine ⟨e, he, ?_⟩
      have hnil : ms.filter (fun p => p.1 == e.name) = [] := by
        rw [List.filter_eq_nil_iff]
        intro p hp
        simpa using hun p hp
      simp [hnil]
    simp [hA]
  · have hB : (vs.all fun v => (ms.filter (fun p => p.2 == v.name)).length == 1)
        = false := by
      rw [List.all_eq_false]
      refine ⟨v, hv, ?_⟩
      have hnil : ms.filter (fun p => p.2 == v.name) = [] := by
        rw [List.filter_eq_nil_iff]
        intro p hp
        simpa using hun p hp
      simp [hnil]
    simp [hB]

/-- Witness for C3: a model with one equation and no match is rejected. -/
theorem mcp_matching_total_bijection_witness :
    MCPMatch.buildMCP [⟨"lonely", []⟩] [] [] = Except.error "ModelDefinitionError" :=
  mcp_matching_total_bijection.2.2 [⟨"lonely", []⟩] [] []
    (Or.inl ⟨⟨"lonely", []⟩, by simp, by simp⟩)

/-- The batch runner's accumulators, from any starting state: results gather the
successful scenarios, failures the rest, and every scenario is attempted. -/
theorem runBatch_foldl_spec (scens : List (String × Option Runner.SolveReport))
    (st : Runner.BatchState) :
    (scens.foldl (fun st p => Runner.runScenario st p.1 p.2) st).results
      = st.results ++ (scens.filter (fun p => Runner.solve_mcp p.2)).map Prod.fst ∧
    (scens.foldl (fun st p => Runner.runScenario st p.1 p.2) st).failures
      = st.failures ++ (scens.filter (fun p => !Runner.solve_mcp p.2)).map Prod.fst ∧
    (scens.foldl (fun st p => Runner.runScenario st p.1 p.2) st).attempted
      = st.attempted ++ scens.map Prod.fst := by
  induction scens generalizing st with
  | nil => simp
  | cons hd tl ih =>
    cases hs : Runner.solve_mcp hd.2 with
    | false =>
        have := ih (Runner.runScenario st hd.1 hd.2)
        simp only [Runner.runScenario, hs, Bool.false_eq_true, if_false] at this
        simp [List.foldl_cons, Runner.runScenario, hs, this, List.filter_cons]
    | true =>
        have := ih (Runner.runScenario st hd.1 hd.2)
        simp only [Runner.runScenario, hs, if_true] at this
        simp [List.foldl_cons, Runner.runScenario, hs, this, List.filter_cons]

/-- C6: for every scenario in the batch, a result record is appended if and only if
the scenario's solve terminated with status ok and termination condition optimal;
non-optimal scenarios are recorded as failures and the runner continues, every
scenario being attempted, so the batch is never aborted by a single failure. -/
theorem scenario_batch_skip_and_continue
    (scens : List (String × Option Runner.SolveReport)) :
    (Runner.runBatch scens).results
      = (scens.filter (fun p => Runner.solve_mcp p.2)).map Prod.fst ∧
    (Runner.runBatch scens).failures
      = (scens.filter (fun p => !Runner.solve_mcp p.2)).map Prod.fst ∧
    (Runner.runBatch scens).attempted = scens.map Prod.fst ∧
    (∀ rep : Option Runner.SolveReport,
      Runner.solve_mcp rep = true ↔
        rep = some ⟨Runner.SolverStatus.ok, Runner.TermCond.optimal⟩) := by
  have h := runBatch_foldl_spec scens ⟨[], [], []⟩
  refine ⟨by simpa [Runner.runBatch] using h.1,
          by simpa [Runner.runBatch] using h.2.1,
          by simpa [Runner.runBatch] using h.2.2, ?_⟩
  intro rep
  cases rep with
  | none => simp [Runner.solve_mcp]
  | some res =>
      cases res with
      | mk s t =>
          cases s <;> cases t <;> simp [Runner.solve_mcp]

open Trade Steel in
/-- C7: a scenario's parameter mutations persist and touch only the named keys. In the
trade model, doubling tcost["B","A"] before the second solve changes exactly that one
tcost entry (to 180) and leaves every other tcost entry and every benchmark parameter
unchanged; in the steel model, the chi = 0.8 written by the cap scenario is the value
in effect at the cap solve and remains until the tax scenario explicitly writes
chi = 0, these two being the only chi writes of the script. -/
theorem scenario_mutation_persistence :
    (mutateTcost initialTradeState).tcostP Region.B Region.A = 180 ∧
    (∀ a b : Region, (a, b) ≠ (Region.B, Region.A) →
      (mutateTcost initialTradeState).tcostP a b = initialTradeState.tcostP a b) ∧
    (mutateTcost initialTradeState).refPM = initialTradeState.refPM ∧
    (mutateTcost initialTradeState).refYA = initialTradeState.refYA ∧
    (mutateTcost initialTradeState).refPA = initialTradeState.refPA ∧
    (mutateTcost initialTradeState).refCM = initialTradeState.refCM ∧
    (mutateTcost initialTradeState).shaPM = initialTradeState.shaPM ∧
    runSteelScript.trace
      = [("Reference", 0), ("Cap (-20%)", 0.8), ("Tax ($10/tCO2)", 0)] ∧
    steelChiWrites = [0.8, 0] := by
  refine ⟨?_, ?_, rfl, rfl, rfl, rfl, rfl, rfl, rfl⟩
  · norm_num [mutateTcost, initialTradeState, update2, tcost]
  · intro a b hne
    simp [mutateTcost, initialTradeState, update2, hne]

open Trade in
/-- Witness for C7: the tcost entry at the untouched key (A, B) is unchanged by the
scenario mutation. -/
theorem scenario_mutation_persistence_witness :
    (mutateTcost initialTradeState).tcostP Region.A Region.B
      = initialTradeState.tcostP Region.A Region.B :=
  scenario_mutation_persistence.2.1 Region.A Region.B (by decide)

open Steel in
/-- C10: for every draw the generator can make (ylim in [10,15) and a subtracted draw
in [0,5) per plant), every plant's reference output ybar is strictly positive and at
most its capacity ylim, and the reference aggregate demand dbar = sum of ybar is at
most total capacity, so the calibration LP (total output at least dbar, each plant at
most ylim) is feasible on the generated data. -/
theorem generated_data_invariants (ylim draw : Fin nPlants → ℚ)
    (hylim : ∀ i, 10 ≤ ylim i ∧ ylim i < 15)
    (hdraw : ∀ i, 0 ≤ draw i ∧ draw i < 5) :
    (∀ i, 0 < ybar_of ylim draw i ∧ ybar_of ylim draw i ≤ ylim i) ∧
    dbar_of ylim draw ≤ ∑ i, ylim i ∧
    (∃ Y : Fin nPlants → ℚ,
      dbar_of ylim draw ≤ ∑ i, Y i ∧ ∀ i, 0 ≤ Y i ∧ Y i ≤ ylim i) := by
  have hpt : ∀ i, 0 < ybar_of ylim draw i ∧ ybar_of ylim draw i ≤ ylim i := by
    intro i
    have h1 := hylim i
    have h2 := hdraw i
    unfold ybar_of
    constructor <;> linarith [h1.1, h1.2, h2.1, h2.2]
  refine ⟨hpt, ?_, ybar_of ylim draw, le_refl _,
    fun i => ⟨le_of_lt (hpt i).1, (hpt i).2⟩⟩
  unfold dbar_of
  apply Finset.sum_le_sum
  intro i _
  exact (hpt i).2

open Steel in
/-- Witness for C10 at the constant draw ylim = 12, draw = 2, plant index 0. -/
theorem generated_data_invariants_witness :
    0 < ybar_of (fun _ => 12) (fun _ => 2) ⟨0, by norm_num [nPlants]⟩ ∧
    ybar_of (fun _ => 12) (fun _ => 2) ⟨0, by norm_num [nPlants]⟩ ≤ (12 : ℚ) :=
  (generated_data_invariants (fun _ => 12) (fun _ => 2)
    (fun _ => by norm_num) (fun _ => by norm_num)).1 ⟨0, by norm_num [nPlants]⟩

/-- Witness for C1: the zero-profit residual at the benchmark point for the route
from A to B is zero. -/
theorem trade_replication_check_witness :
    Trade.zpf_YM_resid Trade.ref_YM Trade.ref_PM Trade.Region.A Trade.Region.B = 0 :=
  (trade_replication_check.1 Trade.Region.A (by simp [Trade.regions])
    Trade.Region.B (by simp [Trade.regions])).1

/-- Witness for C9 at destination region A. -/
theorem sha_PM_normalized_witness :
    Trade.sumR (fun rr => Trade.sha_PM rr Trade.Region.A) = 1 ∧
    Trade.C_PM Trade.ref_PM Trade.Region.A = 1 :=
  sha_PM_normalized Trade.Region.A (by simp [Trade.regions])

/-- Witness for C6: a two-scenario batch with one non-optimal solve still attempts
both scenarios. -/
theorem scenario_batch_skip_and_continue_witness :
    (Runner.runBatch
      [("Reference", some ⟨Runner.SolverStatus.ok, Runner.TermCond.optimal⟩),
       ("Cap (-20%)", some ⟨Runner.SolverStatus.warning, Runner.TermCond.other⟩)]).attempted
      = ["Reference", "Cap (-20%)"] :=
  (scenario_batch_skip_and_continue
    [("Reference", some ⟨Runner.SolverStatus.ok, Runner.TermCond.optimal⟩),
     ("Cap (-20%)", some ⟨Runner.SolverStatus.warning, Runner.TermCond.other⟩)]).2.2.1
